import Mathlib

/-!
Shallow embedding of the Simbi outreach automation scripts
(`simbi_automation_consolidated.py` and `simbi_automation_windows.py`).

Python dictionaries with the fixed key set used by the scripts are modelled
as structures of `Option String` fields (`none` = key absent).  Python floats
arising from the token-set similarity computation are modelled as exact
rationals (`ℚ`): every quantity the scripts compute there is a ratio of small
naturals, and the properties at stake (symmetry, being 0 or 1, lying in
[0,1]) are exact.  Browser interactions are modelled by an environment of
booleans describing which page elements resolve, and the persistent CSV
store is modelled as the list of rows it holds.
-/

namespace Simbi

/-- A scraped request dictionary.  The scripts use string keys
`request_title`, `user_name`, `user_request_text`, `link`, `message_sent`,
`timestamp`; a `none` field models an absent key. -/
structure Record where
  request_title : Option String := none
  user_name : Option String := none
  user_request_text : Option String := none
  link : Option String := none
  message_sent : Option String := none
  timestamp : Option String := none
deriving DecidableEq

/-- Whitespace splitting as performed by Python `str.split()` with no
arguments: maximal runs of non-whitespace characters become words, runs of
whitespace are separators, and no empty words are produced.  `acc` holds the
(reversed) characters of the word currently being read. -/
def wordsAux : List Char → List Char → List String
  | [], acc => if acc = [] then [] else [String.mk acc.reverse]
  | c :: cs, acc =>
    if c.isWhitespace then
      if acc = [] then wordsAux cs [] else String.mk acc.reverse :: wordsAux cs []
    else wordsAux cs (c :: acc)

/-- Tokenization used by `SimpleSimilarityMatcher.calculate_similarity`
(windows file, lines 64-66): `set(text.lower().split())` — lowercase the
text, split it on whitespace, and take the resulting words as a finite
set. -/
def tokens (s : String) : Finset String :=
  (wordsAux (s.data.map Char.toLower) []).toFinset

namespace SimpleSimilarityMatcher

/-- `SimpleSimilarityMatcher.calculate_similarity` (windows file, lines
59-75): returns 0.0 if either text is falsy (empty), otherwise the Jaccard
similarity of the word sets, with a guard returning 0.0 when the union is
empty. -/
def calculate_similarity (text1 text2 : String) : ℚ :=
  if text1 = "" ∨ text2 = "" then 0
  else if (tokens text1 ∪ tokens text2).card = 0 then 0
  else ((tokens text1 ∩ tokens text2).card : ℚ) / ((tokens text1 ∪ tokens text2).card : ℚ)

end SimpleSimilarityMatcher

namespace SimbiSimilarityMatcher

/-- `SimbiSimilarityMatcher.calculate_similarity` (consolidated file, lines
176-189): when no model is loaded it returns 0.0; when a model is loaded it
returns the cosine similarity computed by the external encoder, which we
model as an abstract score function carried by the `model` option (an
encoder error, which the code also maps to 0.0, is absorbed into that
function's value). -/
def calculate_similarity (model : Option (String → String → ℚ)) (text1 text2 : String) : ℚ :=
  match model with
  | none => 0
  | some encode => encode text1 text2

end SimbiSimilarityMatcher

/-- State of a `SimbiDataManager`: the in-memory set of seen links
(`self.sent_messages`) and the rows currently held by the persistent CSV
store (`self.csv_file`).  A row is a record dict; the CSV serialization
itself (header handling, quoting) is abstracted away, but note that a
serialized row always carries a `link` column — a record written without a
link yields the empty string in that column, which is what
`DictWriter`'s `restval` produces and what `DictReader` hands back. -/
structure SimbiDataManager where
  sent_messages : Finset String
  csv_rows : List Record
deriving DecidableEq

namespace SimbiDataManager

/-- `SimbiDataManager.load_sent_messages` (consolidated file, lines
125-135): every row of the CSV contributes its `link` column to the
in-memory set (the `if 'link' in row` guard is always true for
`DictReader` rows, whose keys are the header's field names; an absent link
was serialized as the empty string). -/
def load_sent_messages (rows : List Record) : Finset String :=
  (rows.map fun row => row.link.getD "").toFinset

/-- Constructing a fresh `SimbiDataManager` over an existing store
(`__init__`, lines 120-123): start with the empty set, then run
`load_sent_messages`. -/
def mk_load (rows : List Record) : SimbiDataManager :=
  ⟨load_sent_messages rows, rows⟩

/-- `SimbiDataManager.is_message_sent` (lines 137-139):
`link in self.sent_messages`. -/
def is_message_sent (dm : SimbiDataManager) (link : String) : Bool :=
  link ∈ dm.sent_messages

end SimbiDataManager

/-- How far the persisted write inside `record_sent_message` gets before
raising, following the statement order of the source (lines 143-157):
`openFail` — `open`, the writer construction or the header write raises,
before the dict is stamped; `rowFail` — `writer.writerow(data)` raises,
after `data['timestamp']` was already assigned on line 152; `ok` — the
whole write succeeds. -/
inductive WriteOutcome
  | openFail
  | rowFail
  | ok
deriving DecidableEq

namespace SimbiDataManager

/-- `SimbiDataManager.record_sent_message` (lines 141-159).  On success
the method stamps `data['timestamp'] = now`, appends the stamped row to
the store, and adds `data['link']` to the in-memory set when the key is
present.  On any failure the exception is caught inside the method (it
prints and returns normally) and the set and store are not updated — but
the timestamp assignment on line 152 precedes `writer.writerow` on line
153, so a failure at the row write still leaves the caller's dict
stamped, while a failure at open leaves it untouched.  Returns the new
manager state together with the (possibly mutated) input dict. -/
def record_sent_message (dm : SimbiDataManager) (w : WriteOutcome) (data : Record)
    (now : String) : SimbiDataManager × Record :=
  match w with
  | WriteOutcome.openFail => (dm, data)
  | WriteOutcome.rowFail => (dm, { data with timestamp := some now })
  | WriteOutcome.ok =>
    let stamped : Record := { data with timestamp := some now }
    (⟨if stamped.link.isSome then insert (stamped.link.getD "") dm.sent_messages
      else dm.sent_messages,
      dm.csv_rows ++ [stamped]⟩, stamped)

end SimbiDataManager

/-- One browser interaction performed by `send_message`, in order. -/
inductive BrowserAction
  | navigate (url : String)
  | clickMessageButton
  | typeMessage (text : String)
  | clickSendButton
deriving DecidableEq

/-- Outcome environment for one `send_message` call: which of the page
elements the ordered fallback locator lists resolve, and how far the
ledger write gets. -/
structure BrowserEnv where
  message_button_found : Bool
  text_area_found : Bool
  send_button_found : Bool
  write_outcome : WriteOutcome
deriving DecidableEq

/-- Result of `send_message`: the browser interactions performed, the
returned boolean, the final state of the caller's record dict, and the
final ledger state. -/
structure SendOutcome where
  actions : List BrowserAction
  result : Bool
  record : Record
  ledger : SimbiDataManager
deriving DecidableEq

namespace SimbiAutomation

/-- `SimbiAutomation.send_message` (consolidated file, lines 461-557;
identical in the windows file, lines 407-503).  `template` models
`self.config.config['message_template'].format(user_name=..,
request_title=..)` as a function of the two substituted values.  Flow: if
`is_message_sent(request_data.get('link',''))`, return False immediately
with no browser interaction; otherwise navigate to the link when present,
search for the message button (return False if absent), the text area
(return False if absent), type the rendered message, search for the send
button (return False if absent), click it, set
`request_data['message_sent']`, call `record_sent_message`, and return
True — regardless of whether the ledger write inside
`record_sent_message` succeeded, since that method swallows its errors. -/
def send_message (template : String → String → String) (dm : SimbiDataManager)
    (env : BrowserEnv) (request_data : Record) (now : String) : SendOutcome :=
  if dm.is_message_sent (request_data.link.getD "") then
    ⟨[], false, request_data, dm⟩
  else
    let nav : List BrowserAction :=
      match request_data.link with
      | some url => [BrowserAction.navigate url]
      | none => []
    if env.message_button_found = false then ⟨nav, false, request_data, dm⟩
    else if env.text_area_found = false then
      ⟨nav ++ [BrowserAction.clickMessageButton], false, request_data, dm⟩
    else
      let message_text := template (request_data.user_name.getD "there")
        (request_data.request_title.getD "your request")
      if env.send_button_found then
        let updated : Record := { request_data with message_sent := some message_text }
        let res := dm.record_sent_message env.write_outcome updated now
        ⟨nav ++ [BrowserAction.clickMessageButton, BrowserAction.typeMessage message_text,
          BrowserAction.clickSendButton], true, res.2, res.1⟩
      else
        ⟨nav ++ [BrowserAction.clickMessageButton, BrowserAction.typeMessage message_text],
          false, request_data, dm⟩

end SimbiAutomation

/-- A run's worth of further ledger appends: fold `record_sent_message`
over a list of (write outcome, record, timestamp) calls. -/
def runAppends (dm : SimbiDataManager) (ops : List (WriteOutcome × Record × String)) :
    SimbiDataManager :=
  ops.foldl (fun d op => (d.record_sent_message op.1 op.2.1 op.2.2).1) dm

/-- One DOM element as seen by `extract_requests_from_page`: for each
semantic field, the value put into the dict by the ordered selector
cascade — `none` when no selector matched (key never assigned), `some s`
when one matched and produced the (stripped) string `s`, possibly empty. -/
structure Element where
  request_title : Option String := none
  user_name : Option String := none
  user_request_text : Option String := none
  link : Option String := none
deriving DecidableEq

/-- Python truthiness of a dict lookup `d.get(k)`: false for an absent key
or an empty string. -/
def truthy : Option String → Bool
  | none => false
  | some s => s ≠ ""

/-- The record dict assembled for one element (lines 376-419 of the
consolidated file): exactly the resolved fields, nothing else. -/
def buildRecord (e : Element) : Record :=
  { request_title := e.request_title, user_name := e.user_name,
    user_request_text := e.user_request_text, link := e.link,
    message_sent := none, timestamp := none }

namespace SimbiAutomation

/-- `SimbiAutomation.extract_requests_from_page` (consolidated file, lines
366-433): for each element, build the record and append it to the result
only if `request_data.get('request_title')` and `request_data.get('link')`
are both truthy. -/
def extract_requests_from_page : List Element → List Record
  | [] => []
  | e :: es =>
    if truthy e.request_title && truthy e.link then
      buildRecord e :: extract_requests_from_page es
    else extract_requests_from_page es

/-- The crawl loop body of `scrape_requests` (consolidated file, lines
341-357): `for page in range(1, max_pages + 1)` — each iteration extracts
the current page (`extract page` gives that page's records; extraction
errors are caught inside `extract_requests_from_page` and yield `[]`),
then calls `go_to_next_page` (`hasNext page`; its errors are caught inside
and yield `False`) and breaks when it returns False.  Returns the
accumulated records and the number of extraction cycles performed. -/
def scrapeLoop (extract : Nat → List Record) (hasNext : Nat → Bool) :
    Nat → Nat → List Record × Nat
  | _, 0 => ([], 0)
  | page, fuel + 1 =>
    let recs := extract page
    if hasNext page then
      let rest := scrapeLoop extract hasNext (page + 1) fuel
      (recs ++ rest.1, rest.2 + 1)
    else (recs, 1)

/-- `SimbiAutomation.scrape_requests` (consolidated file, lines 330-364):
navigate to the service url (`initialNavOk`; on failure the exception is
caught and the empty partial result is returned, with zero extraction
cycles), then run the crawl loop starting at page 1 with bound
`max_pages`. -/
def scrape_requests (initialNavOk : Bool) (extract : Nat → List Record)
    (hasNext : Nat → Bool) (max_pages : Nat) : List Record × Nat :=
  if initialNavOk then scrapeLoop extract hasNext 1 max_pages else ([], 0)

end SimbiAutomation

/-- Text used for grouping one request (both files):
`request.get('user_request_text', '') + ' ' + request.get('request_title', '')`. -/
def request_text (r : Record) : String :=
  r.user_request_text.getD "" ++ " " ++ r.request_title.getD ""

/-- The greedy single-linkage grouping loop shared by both
`group_similar_requests` implementations (windows file, lines 553-581;
consolidated file, lines 619-645): take the first unprocessed record, open
a group with it, add every later unprocessed record whose similarity to the
group opener meets the threshold (`similarity >= threshold`), mark all of
them processed and recurse on the records left over. -/
def groupGreedy {α : Type} (score : α → α → ℚ) (threshold : ℚ) : List α → List (List α)
  | [] => []
  | r :: rest =>
    (r :: rest.filter fun s => threshold ≤ score r s) ::
      groupGreedy score threshold (rest.filter fun s => ¬ threshold ≤ score r s)
termination_by l => l.length
decreasing_by
  exact Nat.lt_succ_of_le (List.length_filter_le _ _)

namespace Windows

/-- `SimbiAutomation.group_similar_requests` of the windows file (lines
553-581): the greedy loop scored by `SimpleSimilarityMatcher` over the
concatenated request texts. -/
def group_similar_requests (threshold : ℚ) (requests : List Record) :
    List (List Record) :=
  groupGreedy
    (fun a b => SimpleSimilarityMatcher.calculate_similarity (request_text a) (request_text b))
    threshold requests

end Windows

namespace Consolidated

/-- `SimbiAutomation.group_similar_requests` of the consolidated file
(lines 614-645): when no similarity model is loaded, each request goes in
its own group; otherwise the greedy loop runs, scored by
`SimbiSimilarityMatcher.calculate_similarity`. -/
def group_similar_requests (model : Option (String → String → ℚ)) (threshold : ℚ)
    (requests : List Record) : List (List Record) :=
  match model with
  | none => requests.map fun r => [r]
  | some m =>
    groupGreedy
      (fun a b => SimbiSimilarityMatcher.calculate_similarity (some m)
        (request_text a) (request_text b))
      threshold requests

end Consolidated

/-- The windows `group_similar_requests` run on input records tagged with
their input positions (`List.enum`), scoring only the record component:
used to state order-preservation properties of the grouping.  Projecting
the tags away recovers `Windows.group_similar_requests` exactly
(first conjunct of the order theorem below). -/
def group_with_indices (threshold : ℚ) (l : List Record) : List (List (Nat × Record)) :=
  groupGreedy
    (fun a b => SimpleSimilarityMatcher.calculate_similarity
      (request_text a.2) (request_text b.2))
    threshold l.enum

/-- The consolidated `group_similar_requests` run on input records tagged
with their input positions, covering both of its branches: without a model
each tagged record opens its own singleton group, with a model the greedy
loop runs scored by `SimbiSimilarityMatcher` on the record component.
Projecting the tags away recovers `Consolidated.group_similar_requests`
exactly (third conjunct of the order theorem below). -/
def group_with_indices_consolidated (model : Option (String → String → ℚ))
    (threshold : ℚ) (l : List Record) : List (List (Nat × Record)) :=
  match model with
  | none => l.enum.map fun a => [a]
  | some m =>
    groupGreedy
      (fun a b => SimbiSimilarityMatcher.calculate_similarity (some m)
        (request_text a.2) (request_text b.2))
      threshold l.enum

/-- Flattening singleton groups gives back the input list. -/
lemma flatten_map_singleton {α : Type} (l : List α) :
    (l.map fun a => [a]).flatten = l := by
  induction l with
  | nil => simp
  | cons a as ih => simp [ih]

/-! Helper lemmas about the token-set similarity. -/

lemma tokens_empty : tokens "" = ∅ := by decide

lemma calculate_similarity_comm (a b : String) :
    SimpleSimilarityMatcher.calculate_similarity a b =
      SimpleSimilarityMatcher.calculate_similarity b a := by
  unfold SimpleSimilarityMatcher.calculate_similarity
  rw [Finset.inter_comm, Finset.union_comm]
  simp only [or_comm]

lemma calculate_similarity_self (a : String) (h : tokens a ≠ ∅) :
    SimpleSimilarityMatcher.calculate_similarity a a = 1 := by
  have ha : ¬ (a = "" ∨ a = "") := by
    rintro (rfl | rfl) <;> exact h tokens_empty
  have hc : (tokens a).card ≠ 0 := by
    simpa [Finset.card_eq_zero] using h
  unfold SimpleSimilarityMatcher.calculate_similarity
  rw [if_neg ha, Finset.inter_self, Finset.union_self, if_neg hc]
  exact div_self (by exact_mod_cast hc)

lemma calculate_similarity_empty_left (x : String) :
    SimpleSimilarityMatcher.calculate_similarity "" x = 0 := by
  unfold SimpleSimilarityMatcher.calculate_similarity
  rw [if_pos (Or.inl rfl)]

lemma calculate_similarity_nonneg (a b : String) :
    0 ≤ SimpleSimilarityMatcher.calculate_similarity a b := by
  unfold SimpleSimilarityMatcher.calculate_similarity
  by_cases h1 : a = "" ∨ b = ""
  · rw [if_pos h1]
  · rw [if_neg h1]
    by_cases h2 : (tokens a ∪ tokens b).card = 0
    · rw [if_pos h2]
    · rw [if_neg h2]
      positivity

lemma calculate_similarity_le_one (a b : String) :
    SimpleSimilarityMatcher.calculate_similarity a b ≤ 1 := by
  unfold SimpleSimilarityMatcher.calculate_similarity
  by_cases h1 : a = "" ∨ b = ""
  · rw [if_pos h1]; norm_num
  · rw [if_neg h1]
    by_cases h2 : (tokens a ∪ tokens b).card = 0
    · rw [if_pos h2]; norm_num
    · rw [if_neg h2]
      apply div_le_one_of_le₀
      · exact_mod_cast Finset.card_le_card
          (le_trans Finset.inter_subset_left Finset.subset_union_left)
      · positivity

/-! Helper lemmas about the ledger. -/

lemma is_message_sent_record_mono (dm : SimbiDataManager) (w : WriteOutcome)
    (data : Record) (now L : String) (h : dm.is_message_sent L = true) :
    ((dm.record_sent_message w data now).1).is_message_sent L = true := by
  unfold SimbiDataManager.record_sent_message
  cases w with
  | openFail => simpa using h
  | rowFail => simpa using h
  | ok =>
    simp only [SimbiDataManager.is_message_sent, decide_eq_true_eq] at h ⊢
    by_cases hl : (Record.link data).isSome <;> simp [hl, Finset.mem_insert, h]

lemma runAppends_mono (L : String) (ops : List (WriteOutcome × Record × String)) :
    ∀ dm : SimbiDataManager, dm.is_message_sent L = true →
      (runAppends dm ops).is_message_sent L = true := by
  induction ops with
  | nil => intro dm h; simpa [runAppends] using h
  | cons op rest ih =>
    intro dm h
    simp only [runAppends, List.foldl_cons]
    exact ih _ (is_message_sent_record_mono dm op.1 op.2.1 op.2.2 L h)

lemma record_sent_message_marks (dm : SimbiDataManager) (data : Record) (now L : String)
    (h : data.link = some L) :
    ((dm.record_sent_message WriteOutcome.ok data now).1).is_message_sent L = true := by
  simp [SimbiDataManager.record_sent_message, SimbiDataManager.is_message_sent, h]

lemma load_sent_messages_mem (rows : List Record) (row : Record) (h : row ∈ rows) :
    (row.link.getD "") ∈ SimbiDataManager.load_sent_messages rows := by
  simp only [SimbiDataManager.load_sent_messages, List.mem_toFinset, List.mem_map]
  exact ⟨row, h, rfl⟩

/-! Helper lemmas about the greedy grouping loop. -/

lemma groupGreedy_nil {α : Type} (score : α → α → ℚ) (t : ℚ) :
    groupGreedy score t [] = [] := by
  rw [groupGreedy]

lemma groupGreedy_cons {α : Type} (score : α → α → ℚ) (t : ℚ) (r : α) (rest : List α) :
    groupGreedy score t (r :: rest) =
      (r :: rest.filter fun s => t ≤ score r s) ::
        groupGreedy score t (rest.filter fun s => ¬ t ≤ score r s) := by
  rw [groupGreedy]

lemma groupGreedy_flatten_perm {α : Type} (score : α → α → ℚ) (t : ℚ) :
    ∀ (n : Nat) (l : List α), l.length ≤ n →
      ((groupGreedy score t l).flatten).Perm l := by
  intro n
  induction n with
  | zero =>
    intro l hl
    rw [List.length_eq_zero.mp (Nat.le_zero.mp hl)]
    simp [groupGreedy_nil]
  | succ n ih =>
    intro l hl
    cases l with
    | nil => simp [groupGreedy_nil]
    | cons r rest =>
      rw [groupGreedy_cons, List.flatten_cons, List.cons_append]
      refine List.Perm.cons r ?_
      have h1 : ((groupGreedy score t (rest.filter fun s => ¬ t ≤ score r s)).flatten).Perm
          (rest.filter fun s => ¬ t ≤ score r s) := by
        apply ih
        exact le_trans (List.length_filter_le _ _) (Nat.le_of_succ_le_succ hl)
      refine List.Perm.trans (List.Perm.append_left _ h1) ?_
      simpa only [decide_not] using
        List.filter_append_perm (fun s => decide (t ≤ score r s)) rest

lemma groupGreedy_ne_nil {α : Type} (score : α → α → ℚ) (t : ℚ) :
    ∀ (n : Nat) (l : List α), l.length ≤ n →
      ∀ g ∈ groupGreedy score t l, g ≠ [] := by
  intro n
  induction n with
  | zero =>
    intro l hl
    rw [List.length_eq_zero.mp (Nat.le_zero.mp hl)]
    simp [groupGreedy_nil]
  | succ n ih =>
    intro l hl g hg
    cases l with
    | nil => simp [groupGreedy_nil] at hg
    | cons r rest =>
      rw [groupGreedy_cons] at hg
      rcases List.mem_cons.mp hg with h | h
      · simp [h]
      · exact ih _ (le_trans (List.length_filter_le _ _) (Nat.le_of_succ_le_succ hl)) g h

lemma groupGreedy_length_le {α : Type} (score : α → α → ℚ) (t : ℚ) :
    ∀ (n : Nat) (l : List α), l.length ≤ n →
      (groupGreedy score t l).length ≤ l.length := by
  intro n
  induction n with
  | zero =>
    intro l hl
    rw [List.length_eq_zero.mp (Nat.le_zero.mp hl)]
    simp [groupGreedy_nil]
  | succ n ih =>
    intro l hl
    cases l with
    | nil => simp [groupGreedy_nil]
    | cons r rest =>
      rw [groupGreedy_cons]
      simp only [List.length_cons, Nat.succ_le_succ_iff]
      exact le_trans
        (ih _ (le_trans (List.length_filter_le _ _) (Nat.le_of_succ_le_succ hl)))
        (List.length_filter_le _ _)

lemma groupGreedy_sublist {α : Type} (score : α → α → ℚ) (t : ℚ) :
    ∀ (n : Nat) (l : List α), l.length ≤ n →
      ∀ g ∈ groupGreedy score t l, g.Sublist l := by
  intro n
  induction n with
  | zero =>
    intro l hl
    rw [List.length_eq_zero.mp (Nat.le_zero.mp hl)]
    simp [groupGreedy_nil]
  | succ n ih =>
    intro l hl g hg
    cases l with
    | nil => simp [groupGreedy_nil] at hg
    | cons r rest =>
      rw [groupGreedy_cons] at hg
      rcases List.mem_cons.mp hg with h | h
      · rw [h]
        exact List.Sublist.cons₂ r (List.filter_sublist rest)
      · have hsub : g.Sublist (rest.filter fun s => ¬ t ≤ score r s) :=
          ih _ (le_trans (List.length_filter_le _ _) (Nat.le_of_succ_le_succ hl)) g h
        exact hsub.trans ((List.filter_sublist rest).trans (List.sublist_cons_self r rest))

lemma groupGreedy_heads_rel {α : Type} {R : α → α → Prop} (score : α → α → ℚ) (t : ℚ) :
    ∀ (n : Nat) (l : List α), l.length ≤ n → l.Pairwise R →
      (groupGreedy score t l).Pairwise fun g h => ∀ a ∈ g.head?, ∀ b ∈ h, R a b := by
  intro n
  induction n with
  | zero =>
    intro l hl
    rw [List.length_eq_zero.mp (Nat.le_zero.mp hl)]
    simp [groupGreedy_nil]
  | succ n ih =>
    intro l hl hR
    cases l with
    | nil => simp [groupGreedy_nil]
    | cons r rest =>
      rw [groupGreedy_cons]
      have hrem : (rest.filter fun s => ¬ t ≤ score r s).length ≤ n :=
        le_trans (List.length_filter_le _ _) (Nat.le_of_succ_le_succ hl)
      refine List.Pairwise.cons ?_ ?_
      · intro h hmem a ha b hb
        have ha' : a = r := by
          have := ha
          simp only [List.head?, Option.mem_def, Option.some.injEq] at this
          exact this.symm
        have hbrem : b ∈ rest.filter fun s => ¬ t ≤ score r s :=
          (groupGreedy_sublist score t n _ hrem h hmem).subset hb
        have hbrest : b ∈ rest := (List.mem_filter.mp hbrem).1
        rw [ha']
        exact List.rel_of_pairwise_cons hR hbrest
      · exact ih _ hrem
          (List.Pairwise.sublist (List.filter_sublist rest)
            (List.Pairwise.of_cons hR))

lemma groupGreedy_map_eq {α β : Type} (score : β → β → ℚ) (t : ℚ) (f : α → β) :
    ∀ (n : Nat) (l : List α), l.length ≤ n →
      (groupGreedy (fun a b => score (f a) (f b)) t l).map (List.map f) =
        groupGreedy score t (l.map f) := by
  intro n
  induction n with
  | zero =>
    intro l hl
    rw [List.length_eq_zero.mp (Nat.le_zero.mp hl)]
    simp [groupGreedy_nil]
  | succ n ih =>
    intro l hl
    cases l with
    | nil => simp [groupGreedy_nil]
    | cons r rest =>
      rw [List.map_cons, groupGreedy_cons, groupGreedy_cons, List.map_cons]
      congr 1
      · rw [List.map_cons, List.filter_map]
        congr 1
      · rw [List.filter_map, ← ih _ (le_trans (List.length_filter_le _ _)
          (Nat.le_of_succ_le_succ hl))]
        congr 1

lemma enum_pairwise_lt {α : Type} (l : List α) :
    l.enum.Pairwise fun a b => a.1 < b.1 := by
  have hm : List.map Prod.fst ((List.range l.length).zip l) = List.range l.length :=
    List.map_fst_zip _ _ (by simp)
  have h : (List.map Prod.fst ((List.range l.length).zip l)).Pairwise (· < ·) := by
    rw [hm]; exact List.pairwise_lt_range l.length
  rw [List.enum_eq_zip_range]
  exact List.pairwise_map.mp h

lemma head_index_le_of_pairwise {α : Type} {g : List (Nat × α)}
    (hg : g.Pairwise fun a b => a.1 < b.1) :
    ∀ a ∈ g.head?, ∀ b ∈ g, a.1 ≤ b.1 := by
  cases g with
  | nil => intro a ha; simp [List.head?] at ha
  | cons x xs =>
    intro a ha b hb
    have hax : a = x := by
      simp only [List.head?, Option.mem_def, Option.some.injEq] at ha
      exact ha.symm
    rw [hax]
    rcases List.mem_cons.mp hb with rfl | hbm
    · exact le_refl _
    · exact le_of_lt (List.rel_of_pairwise_cons hg hbm)

lemma groupGreedy_order_facts {α : Type} (score : Nat × α → Nat × α → ℚ) (t : ℚ)
    (l : List (Nat × α)) (hl : l.Pairwise fun a b => a.1 < b.1) :
    (∀ g ∈ groupGreedy score t l, g.Sublist l) ∧
    (∀ g ∈ groupGreedy score t l, ∀ a ∈ g.head?, ∀ b ∈ g, a.1 ≤ b.1) ∧
    (groupGreedy score t l).Pairwise
      (fun g h => ∀ a ∈ g.head?, ∀ b ∈ h.head?, a.1 < b.1) := by
  refine ⟨groupGreedy_sublist _ _ l.length l (le_refl _), ?_, ?_⟩
  · intro g hg
    exact head_index_le_of_pairwise
      (List.Pairwise.sublist (groupGreedy_sublist _ _ l.length l (le_refl _) g hg) hl)
  · have h := groupGreedy_heads_rel (R := fun a b : Nat × α => a.1 < b.1) score t
      l.length l (le_refl _) hl
    exact List.Pairwise.imp
      (fun hab a ha b hb => hab a ha b (List.mem_of_mem_head? hb)) h

lemma singleton_groups_order_facts {α : Type} (l : List (Nat × α))
    (hl : l.Pairwise fun a b => a.1 < b.1) :
    (∀ g ∈ l.map fun x => [x], g.Sublist l) ∧
    (∀ g ∈ l.map fun x => [x], ∀ a ∈ g.head?, ∀ b ∈ g, a.1 ≤ b.1) ∧
    (l.map fun x => [x]).Pairwise
      (fun g h => ∀ a ∈ g.head?, ∀ b ∈ h.head?, a.1 < b.1) := by
  refine ⟨?_, ?_, ?_⟩
  · intro g hg
    obtain ⟨x, hx, rfl⟩ := List.mem_map.mp hg
    exact List.singleton_sublist.mpr hx
  · intro g hg a hahead b hb
    obtain ⟨x, hx, rfl⟩ := List.mem_map.mp hg
    have hax : a = x := by
      simp only [List.head?, Option.mem_def, Option.some.injEq] at hahead
      exact hahead.symm
    have hbx : b = x := by simpa using hb
    rw [hax, hbx]
  · refine List.pairwise_map.mpr (List.Pairwise.imp ?_ hl)
    intro a b hab x hx y hy
    have hxa : x = a := by
      simp only [List.head?, Option.mem_def, Option.some.injEq] at hx
      exact hx.symm
    have hyb : y = b := by
      simp only [List.head?, Option.mem_def, Option.some.injEq] at hy
      exact hy.symm
    rw [hxa, hyb]
    exact hab

/-! Helper lemmas about the crawl loop. -/

lemma scrapeLoop_count_le (extract : Nat → List Record) (hasNext : Nat → Bool) :
    ∀ (fuel page : Nat),
      (SimbiAutomation.scrapeLoop extract hasNext page fuel).2 ≤ fuel := by
  intro fuel
  induction fuel with
  | zero => intro page; simp [SimbiAutomation.scrapeLoop]
  | succ n ih =>
    intro page
    simp only [SimbiAutomation.scrapeLoop]
    by_cases h : hasNext page = true
    · simp only [h, if_true]
      exact Nat.succ_le_succ (ih (page + 1))
    · simp only [eq_false_of_ne_true h, if_false]
      exact Nat.succ_le_succ (Nat.zero_le n)

lemma scrapeLoop_count_stop (extract : Nat → List Record) (hasNext : Nat → Bool) :
    ∀ (k page fuel : Nat), k < fuel →
      (∀ j, j < k → hasNext (page + j) = true) → hasNext (page + k) = false →
      (SimbiAutomation.scrapeLoop extract hasNext page fuel).2 = k + 1 := by
  intro k
  induction k with
  | zero =>
    intro page fuel hk hbefore hstop
    cases fuel with
    | zero => exact absurd hk (Nat.lt_irrefl 0)
    | succ n =>
      have h0 : hasNext page = false := by simpa using hstop
      simp [SimbiAutomation.scrapeLoop, h0]
  | succ k ih =>
    intro page fuel hk hbefore hstop
    cases fuel with
    | zero => exact absurd hk (Nat.not_lt_zero _)
    | succ n =>
      have h0 : hasNext page = true := by
        simpa using hbefore 0 (Nat.succ_pos k)
      have hb : ∀ j, j < k → hasNext (page + 1 + j) = true := by
        intro j hj
        have : page + 1 + j = page + (j + 1) := by omega
        rw [this]
        exact hbefore (j + 1) (Nat.succ_lt_succ hj)
      have hs : hasNext (page + 1 + k) = false := by
        have : page + 1 + k = page + (k + 1) := by omega
        rw [this]
        exact hstop
      simp only [SimbiAutomation.scrapeLoop, h0, if_true]
      rw [ih (page + 1) n (Nat.lt_of_succ_lt_succ hk) hb hs]

/-! Helper lemmas about page extraction. -/

lemma extract_requests_eq_filter_map (elems : List Element) :
    SimbiAutomation.extract_requests_from_page elems =
      (elems.filter fun e => truthy e.request_title && truthy e.link).map buildRecord := by
  induction elems with
  | nil => simp [SimbiAutomation.extract_requests_from_page]
  | cons e es ih =>
    by_cases h : (truthy e.request_title && truthy e.link) = true
    · simp [SimbiAutomation.extract_requests_from_page, h, ih]
    · simp [SimbiAutomation.extract_requests_from_page, h, ih]

/-! Helper lemma about the record dict coming out of `send_message`. -/

lemma send_message_record_cases (template : String → String → String)
    (dm : SimbiDataManager) (env : BrowserEnv) (r : Record) (now : String) :
    (SimbiAutomation.send_message template dm env r now).record = r ∨
    (SimbiAutomation.send_message template dm env r now).record =
      { r with message_sent := some (template (r.user_name.getD "there")
        (r.request_title.getD "your request")) } ∨
    (SimbiAutomation.send_message template dm env r now).record =
      { r with message_sent := some (template (r.user_name.getD "there")
        (r.request_title.getD "your request")), timestamp := some now } := by
  unfold SimbiAutomation.send_message
  by_cases h1 : dm.is_message_sent (r.link.getD "") = true
  · simp [h1]
  by_cases h2 : env.message_button_found = false
  · simp [h1, h2]
  by_cases h3 : env.text_area_found = false
  · simp [h1, h2, h3]
  by_cases h4 : env.send_button_found = true
  · cases h5 : env.write_outcome with
    | openFail => simp [h1, h2, h3, h4, h5, SimbiDataManager.record_sent_message]
    | rowFail => simp [h1, h2, h3, h4, h5, SimbiDataManager.record_sent_message]
    | ok => simp [h1, h2, h3, h4, h5, SimbiDataManager.record_sent_message]
  · simp [h1, h2, h3, eq_false_of_ne_true h4]

/-! Claim theorems. -/

/-- C1, counterexample: with an empty ledger, all page elements resolving
and the persisted write failing at the row write, `send_message` still
returns True — the claim's requirement that the caller must not treat the
record as sent is false of the code (the write error is swallowed inside
`record_sent_message`, which logs it and returns normally). -/
theorem claim_C1_counterexample :
    (SimbiAutomation.send_message (fun u t => u ++ t) ⟨∅, []⟩
      ⟨true, true, true, WriteOutcome.rowFail⟩
      { link := some "https://simbi.com/requests/1" } "2024-01-01").result = true ∧
    (SimbiAutomation.send_message (fun u t => u ++ t) ⟨∅, []⟩
      ⟨true, true, true, WriteOutcome.rowFail⟩
      { link := some "https://simbi.com/requests/1" } "2024-01-01").ledger =
      (⟨∅, []⟩ : SimbiDataManager) := by
  constructor <;> rfl

/-- C1, amended: if the persisted write performed by `record_sent_message`
fails — whether at opening the store or at the row write — the in-memory
seen-link index (and the persistent store) is left unchanged, but the
error is caught and logged inside `record_sent_message` rather than
surfaced, and `send_message` still returns True — it does treat the
record as sent. -/
theorem claim_C1_write_failure (template : String → String → String)
    (dm : SimbiDataManager) (env : BrowserEnv) (r : Record) (now : String)
    (hsent : dm.is_message_sent (r.link.getD "") = false)
    (hmb : env.message_button_found = true) (hta : env.text_area_found = true)
    (hsb : env.send_button_found = true) (hw : env.write_outcome ≠ WriteOutcome.ok) :
    (SimbiAutomation.send_message template dm env r now).ledger = dm ∧
    (SimbiAutomation.send_message template dm env r now).result = true := by
  unfold SimbiAutomation.send_message
  cases hcase : env.write_outcome with
  | openFail => simp [hsent, hmb, hta, hsb, hcase, SimbiDataManager.record_sent_message]
  | rowFail => simp [hsent, hmb, hta, hsb, hcase, SimbiDataManager.record_sent_message]
  | ok => exact absurd hcase hw

/-- C1, witness for the amended theorem at a concrete input. -/
theorem claim_C1_witness :
    (SimbiAutomation.send_message (fun u t => u ++ t) ⟨∅, []⟩
      ⟨true, true, true, WriteOutcome.openFail⟩
      { link := some "https://simbi.com/requests/2" } "2024-01-02").ledger =
      (⟨∅, []⟩ : SimbiDataManager) :=
  (claim_C1_write_failure (fun u t => u ++ t) ⟨∅, []⟩
    ⟨true, true, true, WriteOutcome.openFail⟩
    { link := some "https://simbi.com/requests/2" } "2024-01-02"
    (by decide) rfl rfl rfl (by decide)).1

/-- C2, counterexample: with the embedding model unavailable, the
consolidated `calculate_similarity` returns 0, not the token-set (Jaccard)
score — at the pair ("need a logo", "need a logo") the Jaccard score is 1,
so the backends differ and no transparent fallback happens. -/
theorem claim_C2_counterexample :
    SimbiSimilarityMatcher.calculate_similarity none "need a logo" "need a logo" = 0 ∧
    SimpleSimilarityMatcher.calculate_similarity "need a logo" "need a logo" = 1 ∧
    SimbiSimilarityMatcher.calculate_similarity none "need a logo" "need a logo" ≠
      SimpleSimilarityMatcher.calculate_similarity "need a logo" "need a logo" := by
  have h1 : SimpleSimilarityMatcher.calculate_similarity "need a logo" "need a logo" = 1 :=
    calculate_similarity_self "need a logo" (by decide)
  refine ⟨rfl, h1, ?_⟩
  rw [h1]
  norm_num [SimbiSimilarityMatcher.calculate_similarity]

/-- C2, amended: when the embedding model is not loaded, the consolidated
similarity engine is disabled rather than falling back to the token-set
strategy: `calculate_similarity` returns 0 for every pair of texts, and
`group_similar_requests` short-circuits, putting each request alone in its
own group (the token-set strategy exists only in the separate windows
variant). -/
theorem claim_C2_no_model_disables :
    (∀ t1 t2 : String, SimbiSimilarityMatcher.calculate_similarity none t1 t2 = 0) ∧
    (∀ (thr : ℚ) (l : List Record),
      Consolidated.group_similar_requests none thr l = l.map fun r => [r]) :=
  ⟨fun _ _ => rfl, fun _ _ => rfl⟩

/-- C3, counterexample: the string consisting of a single space is
non-empty (truthy in Python, so it passes the empty-input guard), yet it
has no tokens, so `score(a, a)` is 0, not 1, for it. -/
theorem claim_C3_counterexample :
    (" " : String) ≠ "" ∧
    SimpleSimilarityMatcher.calculate_similarity " " " " ≠ 1 := by
  constructor <;> decide

/-- C3, amended: the token-set `calculate_similarity` is symmetric,
returns 1 on `score(a, a)` whenever `a` has at least one token (rather
than merely being a non-empty string — a whitespace-only string is
non-empty but has no tokens and scores 0 against itself), returns 0 when
the first text is empty, and always lies in [0, 1]. -/
theorem claim_C3_token_strategy_properties :
    (∀ a b : String, SimpleSimilarityMatcher.calculate_similarity a b =
      SimpleSimilarityMatcher.calculate_similarity b a) ∧
    (∀ a : String, tokens a ≠ ∅ → SimpleSimilarityMatcher.calculate_similarity a a = 1) ∧
    (∀ x : String, SimpleSimilarityMatcher.calculate_similarity "" x = 0) ∧
    (∀ a b : String, 0 ≤ SimpleSimilarityMatcher.calculate_similarity a b ∧
      SimpleSimilarityMatcher.calculate_similarity a b ≤ 1) :=
  ⟨calculate_similarity_comm, calculate_similarity_self,
    calculate_similarity_empty_left,
    fun a b => ⟨calculate_similarity_nonneg a b, calculate_similarity_le_one a b⟩⟩

/-- C3, witness: the reflexivity property evaluated at the concrete text
"logo design", which has tokens. -/
theorem claim_C3_witness :
    tokens "logo design" ≠ ∅ ∧
    SimpleSimilarityMatcher.calculate_similarity "logo design" "logo design" = 1 :=
  ⟨by decide, claim_C3_token_strategy_properties.2.1 "logo design" (by decide)⟩

/-- C4: if the link of the record is in the ledger's seen set when
`send_message` starts, the call performs no browser interaction, returns
False, and leaves both the ledger and the record unchanged — no
double-send within a run. -/
theorem claim_C4_no_double_send (template : String → String → String)
    (dm : SimbiDataManager) (env : BrowserEnv) (r : Record) (now : String)
    (h : dm.is_message_sent (r.link.getD "") = true) :
    (SimbiAutomation.send_message template dm env r now).actions = [] ∧
    (SimbiAutomation.send_message template dm env r now).result = false ∧
    (SimbiAutomation.send_message template dm env r now).ledger = dm ∧
    (SimbiAutomation.send_message template dm env r now).record = r := by
  unfold SimbiAutomation.send_message
  simp [h]

/-- C4, witness: a ledger already containing the record's link at a
concrete input. -/
theorem claim_C4_witness :
    (SimbiAutomation.send_message (fun u t => u ++ t)
      ⟨{"https://simbi.com/requests/3"}, []⟩ ⟨true, true, true, WriteOutcome.ok⟩
      { link := some "https://simbi.com/requests/3" } "2024-01-03").actions = [] :=
  (claim_C4_no_double_send (fun u t => u ++ t)
    ⟨{"https://simbi.com/requests/3"}, []⟩ ⟨true, true, true, WriteOutcome.ok⟩
    { link := some "https://simbi.com/requests/3" } "2024-01-03" (by decide)).1

/-- C5: after a successful `record_sent_message` for a record whose link is
`L`, `is_message_sent L` is true, stays true across any further sequence
of appends in the run, and is true again in a fresh manager constructed by
reloading the same persistent rows. -/
theorem claim_C5_ledger_persistence (dm : SimbiDataManager) (data : Record)
    (now L : String) (h : data.link = some L) :
    ((dm.record_sent_message WriteOutcome.ok data now).1).is_message_sent L = true ∧
    (∀ ops : List (WriteOutcome × Record × String),
      (runAppends (dm.record_sent_message WriteOutcome.ok data now).1
        ops).is_message_sent L = true) ∧
    (SimbiDataManager.mk_load
      ((dm.record_sent_message WriteOutcome.ok data now).1).csv_rows).is_message_sent
      L = true := by
  refine ⟨record_sent_message_marks dm data now L h,
    fun ops => runAppends_mono L ops _ (record_sent_message_marks dm data now L h), ?_⟩
  have hrow : ({ data with timestamp := some now } : Record) ∈
      ((dm.record_sent_message WriteOutcome.ok data now).1).csv_rows := by
    simp [SimbiDataManager.record_sent_message]
  have hmem := load_sent_messages_mem _ _ hrow
  simp only [SimbiDataManager.mk_load, SimbiDataManager.is_message_sent, decide_eq_true_eq]
  simpa [h] using hmem

/-- C5, witness: the persistence property at a concrete append on an empty
ledger. -/
theorem claim_C5_witness :
    ((SimbiDataManager.record_sent_message ⟨∅, []⟩ WriteOutcome.ok
      { link := some "https://simbi.com/requests/4" } "2024-01-04").1).is_message_sent
      "https://simbi.com/requests/4" = true :=
  (claim_C5_ledger_persistence ⟨∅, []⟩ { link := some "https://simbi.com/requests/4" }
    "2024-01-04" "https://simbi.com/requests/4" rfl).1

/-- C6: both `group_similar_requests` implementations partition their
input — the concatenation of the output groups is a permutation of the
input list (every input record occurrence lands in exactly one group),
every group is non-empty, and there are at most as many groups as input
records.  The consolidated statement covers both the no-model branch and
the model branch for an arbitrary encoder. -/
theorem claim_C6_grouping_partition (threshold : ℚ)
    (model : Option (String → String → ℚ)) (l : List Record) :
    ((Windows.group_similar_requests threshold l).flatten.Perm l ∧
      (∀ g ∈ Windows.group_similar_requests threshold l, g ≠ []) ∧
      (Windows.group_similar_requests threshold l).length ≤ l.length) ∧
    ((Consolidated.group_similar_requests model threshold l).flatten.Perm l ∧
      (∀ g ∈ Consolidated.group_similar_requests model threshold l, g ≠ []) ∧
      (Consolidated.group_similar_requests model threshold l).length ≤ l.length) := by
  constructor
  · unfold Windows.group_similar_requests
    exact ⟨groupGreedy_flatten_perm _ _ l.length l (le_refl _),
      groupGreedy_ne_nil _ _ l.length l (le_refl _),
      groupGreedy_length_le _ _ l.length l (le_refl _)⟩
  · cases model with
    | none =>
      refine ⟨?_, ?_, ?_⟩
      · simp only [Consolidated.group_similar_requests, flatten_map_singleton]
        exact List.Perm.refl l
      · intro g hg
        simp only [Consolidated.group_similar_requests, List.mem_map] at hg
        obtain ⟨a, _, rfl⟩ := hg
        simp
      · simp [Consolidated.group_similar_requests]
    | some m =>
      unfold Consolidated.group_similar_requests
      exact ⟨groupGreedy_flatten_perm _ _ l.length l (le_refl _),
        groupGreedy_ne_nil _ _ l.length l (le_refl _),
        groupGreedy_length_le _ _ l.length l (le_refl _)⟩

/-- C7: the crawl performs at most `max_pages` extraction cycles, and if
`go_to_next_page` first returns False at cycle `k + 1` (pages are
1-based; every earlier cycle had a next page), the crawl stops right
there with exactly `k + 1` cycles. -/
theorem claim_C7_crawl_bounded (initOk : Bool) (extract : Nat → List Record)
    (hasNext : Nat → Bool) (max_pages : Nat) (hpos : 0 < max_pages) :
    (SimbiAutomation.scrape_requests initOk extract hasNext max_pages).2 ≤ max_pages ∧
    (∀ k, k < max_pages → (∀ j, j < k → hasNext (1 + j) = true) →
      hasNext (1 + k) = false → initOk = true →
      (SimbiAutomation.scrape_requests initOk extract hasNext max_pages).2 = k + 1) := by
  constructor
  · unfold SimbiAutomation.scrape_requests
    by_cases h : initOk = true
    · simp only [h, if_true]
      exact scrapeLoop_count_le extract hasNext max_pages 1
    · simp [h]
  · intro k hk hb hs hok
    unfold SimbiAutomation.scrape_requests
    simp only [hok, if_true]
    exact scrapeLoop_count_stop extract hasNext k 1 max_pages hk hb hs

/-- C7, witness: with a bound of 3 pages and no next page ever resolving,
exactly one extraction cycle runs. -/
theorem claim_C7_witness :
    (SimbiAutomation.scrape_requests true (fun _ => []) (fun _ => false) 3).2 ≤ 3 ∧
    (SimbiAutomation.scrape_requests true (fun _ => []) (fun _ => false) 3).2 = 0 + 1 :=
  ⟨(claim_C7_crawl_bounded true (fun _ => []) (fun _ => false) 3 (by decide)).1,
    (claim_C7_crawl_bounded true (fun _ => []) (fun _ => false) 3 (by decide)).2
      0 (by decide) (fun j hj => absurd hj (Nat.not_lt_zero j)) rfl rfl⟩

/-- C8: a record is in the output of `extract_requests_from_page` exactly
when it was built from an element of the page whose title and link both
resolved truthy (present and non-empty); the built record carries the
optional fields exactly as resolved, absent when unresolved. -/
theorem claim_C8_extraction_gate (elems : List Element) (r : Record) :
    (r ∈ SimbiAutomation.extract_requests_from_page elems ↔
      ∃ e, e ∈ elems ∧ (truthy e.request_title = true ∧ truthy e.link = true) ∧
        r = buildRecord e) ∧
    (∀ e : Element, (buildRecord e).request_title = e.request_title ∧
      (buildRecord e).user_name = e.user_name ∧
      (buildRecord e).user_request_text = e.user_request_text ∧
      (buildRecord e).link = e.link) := by
  constructor
  · rw [extract_requests_eq_filter_map]
    simp only [List.mem_map, List.mem_filter, Bool.and_eq_true]
    constructor
    · rintro ⟨e, ⟨he, ht, hl⟩, rfl⟩
      exact ⟨e, he, ⟨ht, hl⟩, rfl⟩
    · rintro ⟨e, he, ⟨ht, hl⟩, rfl⟩
      exact ⟨e, ⟨he, ht, hl⟩, rfl⟩
  · intro e
    exact ⟨rfl, rfl, rfl, rfl⟩

/-- C9: both `group_similar_requests` implementations preserve input
order.  Each equals its index-tagged run with the tags projected away
(first and third conjuncts); for the index-tagged runs (windows greedy,
and consolidated in both its singleton and encoder branches), every group
is a sublist of the enumerated input (so records inside a group keep
their input relative order), the opening record of a group carries its
group's smallest input index, and groups open at strictly increasing
input indices. -/
theorem claim_C9_grouping_preserves_order (threshold : ℚ)
    (model : Option (String → String → ℚ)) (l : List Record) :
    (Windows.group_similar_requests threshold l =
      (group_with_indices threshold l).map (List.map Prod.snd)) ∧
    ((∀ g ∈ group_with_indices threshold l, g.Sublist l.enum) ∧
      (∀ g ∈ group_with_indices threshold l, ∀ a ∈ g.head?, ∀ b ∈ g, a.1 ≤ b.1) ∧
      (group_with_indices threshold l).Pairwise
        (fun g h => ∀ a ∈ g.head?, ∀ b ∈ h.head?, a.1 < b.1)) ∧
    (Consolidated.group_similar_requests model threshold l =
      (group_with_indices_consolidated model threshold l).map (List.map Prod.snd)) ∧
    ((∀ g ∈ group_with_indices_consolidated model threshold l, g.Sublist l.enum) ∧
      (∀ g ∈ group_with_indices_consolidated model threshold l,
        ∀ a ∈ g.head?, ∀ b ∈ g, a.1 ≤ b.1) ∧
      (group_with_indices_consolidated model threshold l).Pairwise
        (fun g h => ∀ a ∈ g.head?, ∀ b ∈ h.head?, a.1 < b.1)) := by
  refine ⟨?_, ?_, ?_, ?_⟩
  · unfold Windows.group_similar_requests group_with_indices
    rw [← List.enum_map_snd l]
    rw [← groupGreedy_map_eq _ threshold Prod.snd l.enum.length l.enum (le_refl _)]
    rw [List.enum_map_snd l]
  · unfold group_with_indices
    exact groupGreedy_order_facts _ threshold l.enum (enum_pairwise_lt l)
  · cases model with
    | none =>
      show (l.map fun r => [r]) = (l.enum.map fun a => [a]).map (List.map Prod.snd)
      rw [List.map_map]
      have hcomp : (List.map (Prod.snd (α := Nat) (β := Record)) ∘ fun a => [a]) =
          ((fun r : Record => [r]) ∘ Prod.snd) := rfl
      rw [hcomp, ← List.map_map, List.enum_map_snd]
    | some m =>
      show groupGreedy (fun a b => SimbiSimilarityMatcher.calculate_similarity (some m)
          (request_text a) (request_text b)) threshold l =
        (groupGreedy (fun a b => SimbiSimilarityMatcher.calculate_similarity (some m)
          (request_text a.2) (request_text b.2)) threshold l.enum).map (List.map Prod.snd)
      rw [← List.enum_map_snd l]
      rw [← groupGreedy_map_eq _ threshold Prod.snd l.enum.length l.enum (le_refl _)]
      rw [List.enum_map_snd l]
  · cases model with
    | none =>
      show (∀ g ∈ l.enum.map fun a => [a], g.Sublist l.enum) ∧ _
      exact singleton_groups_order_facts l.enum (enum_pairwise_lt l)
    | some m =>
      unfold group_with_indices_consolidated
      exact groupGreedy_order_facts _ threshold l.enum (enum_pairwise_lt l)

/-- C10: `record_sent_message` rewrites exactly the timestamp key of the
caller's dict — the stamp happens before the row write, so the dict comes
back stamped both on success and on a row-write failure, and untouched
only when opening the store fails before the stamp; no other key ever
changes.  `send_message` leaves every key of the record unchanged except
`message_sent` (set to the rendered message on the send path) and the
timestamp written by the recording step. -/
theorem claim_C10_record_mutation_frame (template : String → String → String)
    (dm dm2 : SimbiDataManager) (env : BrowserEnv) (data r : Record) (w : WriteOutcome)
    (now now2 : String) :
    ((dm2.record_sent_message w data now2).2 =
      if w = WriteOutcome.openFail then data
      else { data with timestamp := some now2 }) ∧
    ((SimbiAutomation.send_message template dm env r now).record.link = r.link ∧
      (SimbiAutomation.send_message template dm env r now).record.user_name = r.user_name ∧
      (SimbiAutomation.send_message template dm env r now).record.request_title =
        r.request_title ∧
      (SimbiAutomation.send_message template dm env r now).record.user_request_text =
        r.user_request_text) ∧
    ((SimbiAutomation.send_message template dm env r now).record.message_sent =
        r.message_sent ∨
      (SimbiAutomation.send_message template dm env r now).record.message_sent =
        some (template (r.user_name.getD "there") (r.request_title.getD "your request"))) ∧
    ((SimbiAutomation.send_message template dm env r now).record.timestamp = r.timestamp ∨
      (SimbiAutomation.send_message template dm env r now).record.timestamp = some now) := by
  refine ⟨?_, ?_, ?_, ?_⟩
  · cases w <;> rfl
  · rcases send_message_record_cases template dm env r now with h | h | h <;>
      rw [h] <;> exact ⟨rfl, rfl, rfl, rfl⟩
  · rcases send_message_record_cases template dm env r now with h | h | h <;> rw [h]
    · exact Or.inl rfl
    · exact Or.inr rfl
    · exact Or.inr rfl
  · rcases send_message_record_cases template dm env r now with h | h | h <;> rw [h]
    · exact Or.inl rfl
    · exact Or.inl rfl
    · exact Or.inr rfl

end Simbi
